import Mathlib

/-!
Verification of the `typescript-skillup-session` repository's demo snippets
against its natural-language specification.

Shallow embedding conventions:
* JavaScript/TypeScript strings are Lean `String`s (lists of characters).
* The JS `undefined` of an object lookup is `Option.none`; a parameter object
  is embedded as a lookup function `String → Option Value`.
* Exceptions are embedded with `Except String`, carrying the error message.
* JS numbers are embedded as exact rationals (`ℚ`) where the demo only does
  field arithmetic, and as `Int` where only integral values occur; IEEE-754
  rounding is outside the model.
-/

namespace RouteTypes

/-- A character matched by the character class `[A-Za-z0-9_]` of the
placeholder regex in `fillPath` (`11-legacy-module.d.ts`). -/
def isWordChar (c : Char) : Bool :=
  c.isAlphanum || c == '_'

/-- A defined JavaScript value that can be handed to `fillPath` as a parameter
value.  `undefined` is represented by `Option.none` at the lookup, so every
`Value` is a defined value.  Numbers are restricted to integral values; the
claims about `fillPath` do not depend on numeric formatting. -/
inductive Value where
  | str (s : String)
  | num (n : Int)
  | bool (b : Bool)
  | nullv
deriving DecidableEq, Inhabited

/-- JavaScript `String(value)` on a defined value. -/
def jsString : Value → String
  | .str s => s
  | .num n => toString n
  | .bool true => "true"
  | .bool false => "false"
  | .nullv => "null"

/-- Characters that `encodeURIComponent` leaves unescaped besides ASCII
alphanumerics. -/
def uriUnreservedExtra : List Char :=
  ['-', '_', '.', '!', '~', '*', '\'', '(', ')']

def isUriUnreserved (c : Char) : Bool :=
  c.isAlphanum || uriUnreservedExtra.contains c

/-- Upper-case hexadecimal digit. -/
def hexDigitChar (n : Nat) : Char :=
  if n < 10 then Char.ofNat ('0'.toNat + n) else Char.ofNat ('A'.toNat + n - 10)

/-- UTF-8 byte sequence of a Unicode code point (Lean `Char`s are scalar
values, so the lone-surrogate `URIError` of JS cannot arise). -/
def utf8Bytes (n : Nat) : List Nat :=
  if n < 0x80 then [n]
  else if n < 0x800 then
    [0xC0 ||| (n >>> 6), 0x80 ||| (n &&& 0x3F)]
  else if n < 0x10000 then
    [0xE0 ||| (n >>> 12), 0x80 ||| ((n >>> 6) &&& 0x3F), 0x80 ||| (n &&& 0x3F)]
  else
    [0xF0 ||| (n >>> 18), 0x80 ||| ((n >>> 12) &&& 0x3F),
     0x80 ||| ((n >>> 6) &&& 0x3F), 0x80 ||| (n &&& 0x3F)]

def percentEncode (b : Nat) : List Char :=
  ['%', hexDigitChar (b / 16), hexDigitChar (b % 16)]

def encodeURIComponentChar (c : Char) : List Char :=
  if isUriUnreserved c then [c]
  else (utf8Bytes c.toNat).foldr (fun b acc => percentEncode b ++ acc) []

/-- JavaScript `encodeURIComponent`. -/
def encodeURIComponent (s : String) : String :=
  String.mk (s.data.foldr (fun c acc => encodeURIComponentChar c ++ acc) [])

/-- A parameter object: lookup returning `none` for `undefined`. -/
def Params : Type := String → Option Value

theorem dropWhile_length_le (p : Char → Bool) (l : List Char) :
    (l.dropWhile p).length ≤ l.length := by
  induction l with
  | nil => simp [List.dropWhile]
  | cons c rest ih =>
    simp only [List.dropWhile]
    cases p c
    · simp
    · simpa using Nat.le_succ_of_le ih

/-- Recursive core of `fillPath`:
`path.replace(/:([A-Za-z0-9_]+)/g, cb)` scans left to right; at a `:` that is
followed by a nonempty maximal run of word characters the whole `:name` match
is replaced by the callback result, every other character is copied.  The
callback throws (`Except.error`) when `params[key]` is `undefined`, otherwise
returns `encodeURIComponent(String(value))`. -/
def fillPathAux (params : Params) : List Char → Except String (List Char)
  | [] => .ok []
  | c :: rest =>
    if c = ':' then
      let key := rest.takeWhile isWordChar
      if key.isEmpty then
        match fillPathAux params rest with
        | .error e => .error e
        | .ok r => .ok (':' :: r)
      else
        match params (String.mk key) with
        | none => .error ("Missing value for param '" ++ String.mk key ++ "'")
        | some v =>
          match fillPathAux params (rest.dropWhile isWordChar) with
          | .error e => .error e
          | .ok r => .ok ((encodeURIComponent (jsString v)).data ++ r)
    else
      match fillPathAux params rest with
      | .error e => .error e
      | .ok r => .ok (c :: r)
termination_by l => l.length
decreasing_by
  · simp
  · simpa using Nat.lt_succ_of_le (dropWhile_length_le _ _)
  · simp

/-- Runtime `fillPath` of `11-legacy-module.d.ts` (lines 217–228). -/
def fillPath (path : String) (params : Params) : Except String String :=
  (fillPathAux params path.data).map String.mk

/-- The placeholder names of a path, in order of occurrence: the capture
groups of the matches of `/:([A-Za-z0-9_]+)/g`. -/
def pathPlaceholders : List Char → List String
  | [] => []
  | c :: rest =>
    if c = ':' then
      let key := rest.takeWhile isWordChar
      if key.isEmpty then pathPlaceholders rest
      else String.mk key :: pathPlaceholders (rest.dropWhile isWordChar)
    else pathPlaceholders rest
termination_by l => l.length
decreasing_by
  · simp
  · simpa using Nat.lt_succ_of_le (dropWhile_length_le _ _)
  · simp

/-- Spec-side substitution, modelled from the words of the claim (not from the
code): the path with every placeholder occurrence `:name` (`name` a maximal
nonempty run of word characters after `:`) replaced by
`encodeURIComponent(String(params[name]))`, every other character unchanged.
At an undefined parameter (excluded by the claim's hypothesis) it substitutes
nothing. -/
def substSpecAux (params : Params) : List Char → List Char
  | [] => []
  | c :: rest =>
    if c = ':' then
      let key := rest.takeWhile isWordChar
      if key.isEmpty then ':' :: substSpecAux params rest
      else
        (match params (String.mk key) with
         | some v => (encodeURIComponent (jsString v)).data
         | none => []) ++ substSpecAux params (rest.dropWhile isWordChar)
    else c :: substSpecAux params rest
termination_by l => l.length
decreasing_by
  · simp
  · simpa using Nat.lt_succ_of_le (dropWhile_length_le _ _)
  · simp

/-- Spec-side `fillPath` on strings. -/
def fillPathSpec (path : String) (params : Params) : String :=
  String.mk (substSpecAux params path.data)

/-- First-occurrence split: `splitFirst c l = some (a, b)` iff `l = a ++ c :: b`
with `c ∉ a`.  This is how TypeScript matches a literal inside a template
literal type: at the first occurrence, without backtracking. -/
def splitFirst (c : Char) : List Char → Option (List Char × List Char)
  | [] => none
  | x :: xs =>
    if x = c then some ([], xs)
    else (splitFirst c xs).map (fun p => (x :: p.1, p.2))

theorem splitFirst_snd_length {c : Char} :
    ∀ {l a b : List Char}, splitFirst c l = some (a, b) → b.length < l.length := by
  intro l
  induction l with
  | nil => intro a b h; simp [splitFirst] at h
  | cons x xs ih =>
    intro a b h
    simp only [splitFirst] at h
    by_cases hx : x = c
    · rw [if_pos hx] at h
      simp only [Option.some.injEq, Prod.mk.injEq] at h
      rw [← h.2]
      exact Nat.lt_succ_self _
    · rw [if_neg hx] at h
      obtain ⟨⟨a2, b2⟩, hp, heq⟩ := Option.map_eq_some'.mp h
      cases heq
      exact Nat.lt_succ_of_lt (ih hp)

/-- The type-level parser `ExtractParamNames<Path>` of `11-legacy-module.d.ts`
(lines 130–138), embedded over the string value:
`Path extends dollar-string : Param / Rest` first (first `:` of the path, then
the first `/` after it), else the trailing pattern `dollar-string : Param`,
else `never` (the empty list).  TypeScript template-literal inference matches
literals at their first occurrence and lets `infer` placeholders be empty. -/
def extractParamNames (l : List Char) : List String :=
  match h1 : splitFirst ':' l with
  | none => []
  | some (_, after) =>
    match h2 : splitFirst '/' after with
    | some (param, rest) => String.mk param :: extractParamNames rest
    | none => [String.mk after]
termination_by l.length
decreasing_by
  exact Nat.lt_trans (splitFirst_snd_length h2) (splitFirst_snd_length h1)

/-- `PathParams<Path>` is the empty record type `Record<string, never>` exactly
when `ExtractParamNames<Path>` is `never`; otherwise it has one `string` field
per extracted name.  The derived parameter set is therefore empty iff
`extractParamNames` returns no names. -/
def pathParamsIsEmpty (l : List Char) : Bool :=
  extractParamNames l = []

structure Route where
  path : String
  method : String
deriving DecidableEq, Inhabited

/-- `keyof Routes` of the `as const` route table. -/
inductive RouteName where
  | getUser
  | listUserPosts
  | getUserPost
  | createUserPost
  | healthCheck
deriving DecidableEq, Inhabited

/-- The `routes` table of `11-legacy-module.d.ts` (lines 160–181). -/
def routes : RouteName → Route
  | .getUser => ⟨"/users/:id", "GET"⟩
  | .listUserPosts => ⟨"/users/:userId/posts", "GET"⟩
  | .getUserPost => ⟨"/users/:userId/posts/:postId", "GET"⟩
  | .createUserPost => ⟨"/users/:userId/posts", "POST"⟩
  | .healthCheck => ⟨"/health", "GET"⟩

/-- The defaulted `args[0] ?? {}` of `makeUrl`: an empty parameter object. -/
def emptyParams : Params := fun _ => none

/-- Runtime `makeUrl` of `11-legacy-module.d.ts` (lines 235–244):
look the route up in the table and fill its path. -/
def makeUrl (name : RouteName) (params : Params) : Except String String :=
  fillPath (routes name).path params

/-- An object-lookup view of an association-list parameter object, as
`params[key]` reads it. -/
def lookupParams (obj : List (String × Value)) : Params :=
  fun k => (obj.find? (fun e => e.1 == k)).map (fun e => e.2)

/-- State-threaded embedding of `fillPath`: the parameter object is a mutable
JS object, passed in and returned so that mutation would be observable.  The
source only reads `params[key]`, so the object passes through. -/
def fillPathSt (path : String) (obj : List (String × Value)) :
    Except String String × List (String × Value) :=
  (fillPath path (lookupParams obj), obj)

/-- State-threaded embedding of `makeUrl`: both the `routes` table and the
parameter object are mutable JS objects threaded through the call. -/
def makeUrlSt (tbl : List (RouteName × Route)) (name : RouteName)
    (obj : List (String × Value)) :
    Except String String × List (RouteName × Route) × List (String × Value) :=
  match (tbl.find? (fun e => e.1 == name)).map (fun e => e.2) with
  | some route => ((fillPathSt route.path obj).1, tbl, obj)
  | none =>
    (.error "TypeError: Cannot read properties of undefined (reading 'path')",
     tbl, obj)

theorem pathPlaceholders_colon_empty {rest : List Char}
    (hkey : (rest.takeWhile isWordChar).isEmpty = true) :
    pathPlaceholders (':' :: rest) = pathPlaceholders rest := by
  rw [pathPlaceholders]
  simp [hkey]

theorem pathPlaceholders_colon_key {rest : List Char}
    (hkey : ¬(rest.takeWhile isWordChar).isEmpty = true) :
    pathPlaceholders (':' :: rest) =
      String.mk (rest.takeWhile isWordChar) ::
        pathPlaceholders (rest.dropWhile isWordChar) := by
  rw [pathPlaceholders]
  simp [hkey]

theorem pathPlaceholders_other {c : Char} {rest : List Char} (hc : ¬c = ':') :
    pathPlaceholders (c :: rest) = pathPlaceholders rest := by
  rw [pathPlaceholders]
  simp [hc]

/-- Under the claim's hypothesis — every placeholder of the path has a defined
parameter value — the runtime replacement never throws and produces exactly
the spec-side substitution. -/
theorem fillPathAux_spec (params : Params) :
    ∀ l : List Char, (∀ n ∈ pathPlaceholders l, (params n).isSome) →
      fillPathAux params l = .ok (substSpecAux params l) := by
  intro l
  induction l using pathPlaceholders.induct with
  | case1 =>
    intro _
    simp [fillPathAux, substSpecAux]
  | case2 rest key hkey ih =>
    intro h
    rw [pathPlaceholders_colon_empty hkey] at h
    simp [fillPathAux, substSpecAux, hkey, ih h]
  | case3 rest key hkey ih =>
    intro h
    rw [pathPlaceholders_colon_key hkey] at h
    have hsome : (params (String.mk (rest.takeWhile isWordChar))).isSome :=
      h _ (List.mem_cons_self _ _)
    obtain ⟨v, hv⟩ := Option.isSome_iff_exists.mp hsome
    have h2 : ∀ n ∈ pathPlaceholders (rest.dropWhile isWordChar),
        (params n).isSome := fun n hn => h n (List.mem_cons_of_mem _ hn)
    simp [fillPathAux, substSpecAux, hkey, hv, ih h2]
  | case4 c rest hc ih =>
    intro h
    rw [pathPlaceholders_other hc] at h
    simp [fillPathAux, substSpecAux, hc, ih h]

/-- A path with no placeholder passes through `fillPath` unchanged: the regex
finds no match, so `replace` copies every character. -/
theorem fillPathAux_no_placeholder (params : Params) :
    ∀ l : List Char, pathPlaceholders l = [] → fillPathAux params l = .ok l := by
  intro l
  induction l using pathPlaceholders.induct with
  | case1 =>
    intro _
    simp [fillPathAux]
  | case2 rest key hkey ih =>
    intro h
    rw [pathPlaceholders_colon_empty hkey] at h
    simp [fillPathAux, hkey, ih h]
  | case3 rest key hkey ih =>
    intro h
    rw [pathPlaceholders_colon_key hkey] at h
    cases h
  | case4 c rest hc ih =>
    intro h
    rw [pathPlaceholders_other hc] at h
    simp [fillPathAux, hc, ih h]

/-- `fillPath` throws exactly when some placeholder has an undefined value. -/
theorem fillPathAux_error_iff (params : Params) :
    ∀ l : List Char,
      (∃ e, fillPathAux params l = .error e) ↔
        ∃ n ∈ pathPlaceholders l, params n = none := by
  intro l
  induction l using pathPlaceholders.induct with
  | case1 =>
    simp [fillPathAux, pathPlaceholders]
  | case2 rest key hkey ih =>
    rw [pathPlaceholders_colon_empty hkey, ← ih]
    cases hres : fillPathAux params rest with
    | error e => simp [fillPathAux, hkey, hres]
    | ok r => simp [fillPathAux, hkey, hres]
  | case3 rest key hkey ih =>
    rw [pathPlaceholders_colon_key hkey]
    cases hv : params (String.mk (rest.takeWhile isWordChar)) with
    | none =>
      apply iff_of_true
      · exact ⟨"Missing value for param '" ++ String.mk (rest.takeWhile isWordChar) ++ "'",
          by simp [fillPathAux, hkey, hv]⟩
      · exact ⟨_, List.mem_cons_self _ _, hv⟩
    | some v =>
      have hset :
          (∃ n ∈ String.mk (rest.takeWhile isWordChar) ::
              pathPlaceholders (rest.dropWhile isWordChar), params n = none) ↔
            ∃ n ∈ pathPlaceholders (rest.dropWhile isWordChar),
              params n = none := by
        simp [hv]
      rw [hset, ← ih]
      cases hres : fillPathAux params (rest.dropWhile isWordChar) with
      | error e => simp [fillPathAux, hkey, hv, hres]
      | ok r => simp [fillPathAux, hkey, hv, hres]
  | case4 c rest hc ih =>
    rw [pathPlaceholders_other hc, ← ih]
    cases hres : fillPathAux params rest with
    | error e => simp [fillPathAux, hc, hres]
    | ok r => simp [fillPathAux, hc, hres]

/-- When `fillPath` throws, the message names an offending placeholder. -/
theorem fillPathAux_error_msg (params : Params) :
    ∀ (l : List Char) (e : String), fillPathAux params l = .error e →
      ∃ n ∈ pathPlaceholders l,
        params n = none ∧ e = "Missing value for param '" ++ n ++ "'" := by
  intro l
  induction l using pathPlaceholders.induct with
  | case1 =>
    intro e h
    simp [fillPathAux] at h
  | case2 rest key hkey ih =>
    intro e h
    rw [pathPlaceholders_colon_empty hkey]
    cases hres : fillPathAux params rest with
    | error e2 =>
      simp [fillPathAux, hkey, hres] at h
      subst h
      exact ih _ hres
    | ok r =>
      simp [fillPathAux, hkey, hres] at h
  | case3 rest key hkey ih =>
    intro e h
    rw [pathPlaceholders_colon_key hkey]
    cases hv : params (String.mk (rest.takeWhile isWordChar)) with
    | none =>
      simp [fillPathAux, hkey, hv] at h
      exact ⟨_, List.mem_cons_self _ _, hv, h.symm⟩
    | some v =>
      cases hres : fillPathAux params (rest.dropWhile isWordChar) with
      | error e2 =>
        simp [fillPathAux, hkey, hv, hres] at h
        subst h
        obtain ⟨n, hn, hnone, hmsg⟩ := ih _ hres
        exact ⟨n, List.mem_cons_of_mem _ hn, hnone, hmsg⟩
      | ok r =>
        simp [fillPathAux, hkey, hv, hres] at h
  | case4 c rest hc ih =>
    intro e h
    rw [pathPlaceholders_other hc]
    cases hres : fillPathAux params rest with
    | error e2 =>
      simp [fillPathAux, hc, hres] at h
      subst h
      exact ih _ hres
    | ok r =>
      simp [fillPathAux, hc, hres] at h

theorem map_error_iff {e : String} (x : Except String (List Char)) :
    x.map String.mk = .error e ↔ x = .error e := by
  cases x <;> simp [Except.map]

theorem splitFirst_eq_none {c : Char} :
    ∀ l : List Char, splitFirst c l = none ↔ c ∉ l := by
  intro l
  induction l with
  | nil => simp [splitFirst]
  | cons x xs ih =>
    simp only [splitFirst]
    by_cases hx : x = c
    · simp [hx]
    · have hcx : ¬c = x := fun hcd => hx hcd.symm
      simp [hx, hcx, ih, Option.map_eq_none', List.mem_cons]

/-- A path with no `:` at all has no type-level parameters. -/
theorem extractParamNames_of_no_colon {l : List Char} (h : ':' ∉ l) :
    extractParamNames l = [] := by
  rw [extractParamNames.eq_def]
  split
  · rfl
  · rename_i a b hsome
    rw [(splitFirst_eq_none l).mpr h] at hsome
    cases hsome

/-- C1: for every path string and every params mapping that assigns a defined
value to each placeholder name occurring in the path, `fillPath(path, params)`
returns the path with every placeholder occurrence `:name` (a maximal nonempty
run of word characters after `:`) replaced by
`encodeURIComponent(String(params[name]))` and every other character unchanged
— that is, exactly the spec-side substitution `fillPathSpec`, with no
exception thrown. -/
theorem C1_fillPath_substitution (path : String) (params : Params)
    (h : ∀ n ∈ pathPlaceholders path.data, (params n).isSome) :
    fillPath path params = .ok (fillPathSpec path params) := by
  unfold fillPath fillPathSpec
  rw [fillPathAux_spec params path.data h]
  rfl

/-- The parameter object `{ id: "123" }` used by the C1 witness. -/
def wParams : Params := fun k => if k = "id" then some (.str "123") else none

unseal pathPlaceholders in
/-- C1 applied at the route path `/users/:id` with `id = "123"`. -/
theorem C1_witness :
    fillPath "/users/:id" wParams = .ok (fillPathSpec "/users/:id" wParams) :=
  C1_fillPath_substitution "/users/:id" wParams (by decide)

/-- C2: `fillPath(path, params)` throws an error if and only if the path
contains a placeholder `:name` with `params[name]` undefined, and the thrown
message names the offending placeholder; no other runtime validation exists —
whenever every placeholder is defined, no error is raised (by C1's theorem,
every defined value of every `Value` shape is accepted and stringified). -/
theorem C2_fillPath_error_characterisation (path : String) (params : Params) :
    ((∃ e, fillPath path params = .error e) ↔
      ∃ n ∈ pathPlaceholders path.data, params n = none)
    ∧ (∀ e, fillPath path params = .error e →
        ∃ n ∈ pathPlaceholders path.data,
          params n = none ∧ e = "Missing value for param '" ++ n ++ "'") := by
  have hmap : ∀ e, fillPath path params = .error e ↔
      fillPathAux params path.data = .error e := by
    intro e
    unfold fillPath
    exact map_error_iff _
  constructor
  · constructor
    · rintro ⟨e, he⟩
      exact (fillPathAux_error_iff params path.data).mp ⟨e, (hmap e).mp he⟩
    · intro hex
      obtain ⟨e, he⟩ := (fillPathAux_error_iff params path.data).mpr hex
      exact ⟨e, (hmap e).mpr he⟩
  · intro e he
    exact fillPathAux_error_msg params path.data e ((hmap e).mp he)

unseal pathPlaceholders in
/-- C2 applied at `/users/:id` with an empty parameter object: the call
throws. -/
theorem C2_witness : ∃ e, fillPath "/users/:id" emptyParams = .error e :=
  (C2_fillPath_error_characterisation "/users/:id" emptyParams).1.mpr
    ⟨"id", by decide, rfl⟩

unseal pathPlaceholders extractParamNames in
/-- C3 counterexample: the path `":"` contains no placeholder (the runtime
regex requires at least one word character after the `:`), yet its derived
parameter set is not empty — `ExtractParamNames<":">` infers the empty
parameter name, so `PathParams<":">` has one field and is not
`Record<string, never>`. -/
theorem C3_counterexample :
    pathPlaceholders (String.data ":") = [] ∧
      extractParamNames (String.data ":") = [""] := by
  constructor
  · decide
  · decide

unseal fillPathAux pathPlaceholders extractParamNames in
/-- C3 (amended): for every path string containing no `:` character the
derived parameter set is empty; for every path containing no placeholder,
`fillPath(path, params)` returns the path unchanged for every params object;
and `makeUrl("healthCheck")` returns `"/health"`, whose derived parameter set
is empty (extra keys being rejected by `Record<string, never>` is a
compile-time fact about that empty set). -/
theorem C3_amended_empty_params (path : String) (params : Params) :
    (':' ∉ path.data → extractParamNames path.data = [])
    ∧ (pathPlaceholders path.data = [] → fillPath path params = .ok path)
    ∧ makeUrl .healthCheck emptyParams = .ok "/health"
    ∧ extractParamNames (String.data "/health") = [] := by
  refine ⟨fun h => extractParamNames_of_no_colon h, fun h => ?_, rfl, by decide⟩
  unfold fillPath
  rw [fillPathAux_no_placeholder params path.data h]
  rfl

unseal pathPlaceholders in
/-- C3 (amended) applied at the colon-free path `/nope`. -/
theorem C3_witness :
    extractParamNames (String.data "/nope") = [] ∧
      fillPath "/nope" emptyParams = .ok "/nope" :=
  ⟨(C3_amended_empty_params "/nope" emptyParams).1 (by decide),
   (C3_amended_empty_params "/nope" emptyParams).2.1 (by decide)⟩

/-- C7: `fillPath` and `makeUrl` are pure and deterministic — two calls with
equal arguments return equal results, and the threaded mutable objects (the
`routes` table and the params object) come back unchanged from every call. -/
theorem C7_pure_deterministic (tbl : List (RouteName × Route)) (name : RouteName)
    (obj obj2 : List (String × Value)) (path path2 : String)
    (hp : path = path2) (ho : obj = obj2) :
    (fillPathSt path obj).2 = obj
    ∧ (makeUrlSt tbl name obj).2 = (tbl, obj)
    ∧ fillPathSt path obj = fillPathSt path2 obj2
    ∧ makeUrlSt tbl name obj = makeUrlSt tbl name obj2 := by
  subst hp
  subst ho
  refine ⟨rfl, ?_, rfl, rfl⟩
  unfold makeUrlSt
  split <;> rfl

/-- C7 applied at a concrete table, route name, object and path. -/
theorem C7_witness :
    (fillPathSt "/x" []).2 = []
    ∧ (makeUrlSt [] .healthCheck []).2 = ([], [])
    ∧ fillPathSt "/x" [] = fillPathSt "/x" []
    ∧ makeUrlSt [] .healthCheck [] = makeUrlSt [] .healthCheck [] :=
  C7_pure_deterministic [] .healthCheck [] [] "/x" "/x" rfl rfl

end RouteTypes

namespace Truthiness

/-- JS `getDiscount` of `04-control-flow-and-truthiness.js` (lines 54–65):
`if (!amount)` treats a falsy amount as "no discount".  Amounts are embedded
as integers (the demo passes 10, 5 and 0); an integer number is falsy exactly
when it is 0 (NaN lies outside the integer model). -/
def getDiscountJS (amount : Int) : String :=
  if amount = 0 then "No discount applied"
  else "Discount: $" ++ toString amount

/-- TS `getDiscount` of `04-control-flow-and-truthiness.ts` (lines 32–43):
`amount: number | null` with an explicit `=== null` check, `none` embedding
`null`. -/
def getDiscountTS (amount : Option Int) : String :=
  match amount with
  | none => "No discount applied"
  | some a => "Discount: $" ++ toString a

/-- C5: run with input 0, the JavaScript variant returns
"No discount applied" (0 is falsy) and the TypeScript variant returns
"Discount: $0" (0 is not null). -/
theorem C5_discount_at_zero :
    getDiscountJS 0 = "No discount applied"
    ∧ getDiscountTS (some 0) = "Discount: $0" := by
  constructor
  · rfl
  · rfl

end Truthiness

namespace Migration

/-- The options bag of `formatCurrency` in both `11-gradual-migration` files:
`locale`, `currency`, `decimals`, `showSymbol`, all optional (`none` embeds an
absent property / `undefined`). -/
structure CurrencyOptions where
  locale : Option String
  currency : Option String
  decimals : Option ℚ
  showSymbol : Option Bool

/-- JS `formatCurrency` of `11-gradual-migration.js` (lines 11–26).
`amount.toFixed(decimals)` is IEEE-754 decimal formatting; both variants call
it with identical arguments, so it is a parameter `toFixed` of the embedding.
`options?.locale || "en-US"` falls back on every falsy value, hence also on
the empty string. -/
def formatCurrencyJS (toFixed : ℚ → ℚ → String) (amount : ℚ)
    (options : Option CurrencyOptions) : String :=
  let locale := match options.bind (fun o => o.locale) with
    | some l => if l = "" then "en-US" else l
    | none => "en-US"
  let currency := match options.bind (fun o => o.currency) with
    | some c => if c = "" then "USD" else c
    | none => "USD"
  let decimals := (options.bind (fun o => o.decimals)).getD 2
  let showSymbol := match options.bind (fun o => o.showSymbol) with
    | some false => false
    | _ => true
  let formatted := toFixed amount decimals
  if showSymbol then "$" ++ formatted else formatted

/-- TS `formatCurrency` of `11-gradual-migration.ts` (lines 16–28): the typed
fix, using `??` (nullish coalescing) for `locale` and `currency` instead of
`||`. -/
def formatCurrencyTS (toFixed : ℚ → ℚ → String) (amount : ℚ)
    (options : Option CurrencyOptions) : String :=
  let locale := (options.bind (fun o => o.locale)).getD "en-US"
  let currency := (options.bind (fun o => o.currency)).getD "USD"
  let decimals := (options.bind (fun o => o.decimals)).getD 2
  let showSymbol := match options.bind (fun o => o.showSymbol) with
    | some false => false
    | _ => true
  let formatted := toFixed amount decimals
  if showSymbol then "$" ++ formatted else formatted

/-- C6: the TypeScript `formatCurrency` is behaviorally equivalent to the
JavaScript original on well-typed inputs — for every number amount and every
options record (and every formatting primitive `toFixed`) the two return the
same string.  The `||` / `??` difference touches only `locale` and `currency`,
which do not influence the returned string. -/
theorem C6_formatCurrency_equiv (toFixed : ℚ → ℚ → String) (amount : ℚ)
    (options : Option CurrencyOptions) :
    formatCurrencyTS toFixed amount options =
      formatCurrencyJS toFixed amount options := rfl

end Migration

namespace EndToEndTS

/-! Embedding of the typed end-to-end order-processing demo
(`12-END-TO-END`, the TypeScript variant).  The global mutable `orders` array
is threaded explicitly; the simulated network delay of `fetchUser` /
`fetchProduct` is dropped (they are pure lookups after the `setTimeout`);
`new Date()` is an external timestamp parameter `now`. -/

inductive UserTier where
  | basic
  | premium
  | enterprise
deriving DecidableEq, Inhabited

structure User where
  id : Int
  name : String
  email : String
  tier : UserTier
deriving DecidableEq, Inhabited

structure Product where
  id : Int
  name : String
  price : ℚ
  inStock : Bool
deriving DecidableEq, Inhabited

structure OrderItem where
  product : Product
  quantity : ℚ
  total : ℚ
deriving DecidableEq, Inhabited

inductive OrderStatus where
  | pending
  | processing
  | shipped
  | delivered
  | cancelled
deriving DecidableEq, Inhabited

structure Order where
  id : Int
  user : User
  items : List OrderItem
  subtotal : ℚ
  discount : ℚ
  tax : ℚ
  total : ℚ
  status : OrderStatus
  createdAt : Nat
deriving DecidableEq, Inhabited

structure CreateOrderItem where
  productId : Int
  quantity : ℚ
deriving DecidableEq, Inhabited

/-- The `users` "database". -/
def users : List User :=
  [⟨1, "Alice", "alice@example.com", .premium⟩,
   ⟨2, "Bob", "bob@example.com", .basic⟩,
   ⟨3, "Carol", "carol@example.com", .premium⟩]

/-- The `products` "database". -/
def products : List Product :=
  [⟨101, "Widget", 29.99, true⟩,
   ⟨102, "Gadget", 49.99, true⟩,
   ⟨103, "Gizmo", 19.99, false⟩]

/-- `fetchUser`: `users.find((u) => u.id === userId) ?? null`. -/
def fetchUser (userId : Int) : Option User :=
  users.find? (fun u => u.id == userId)

/-- `fetchProduct`: `products.find((p) => p.id === productId) ?? null`. -/
def fetchProduct (productId : Int) : Option Product :=
  products.find? (fun p => p.id == productId)

/-- `calculateDiscount`: 10% for premium, 20% for enterprise, else 0. -/
def calculateDiscount (user : User) (subtotal : ℚ) : ℚ :=
  if user.tier = .premium then subtotal * 0.1
  else if user.tier = .enterprise then subtotal * 0.2
  else 0

/-- `calculateTax`: 8% of its argument. -/
def calculateTax (subtotal : ℚ) : ℚ :=
  subtotal * 0.08

inductive CreateOrderResult where
  | success (order : Order)
  | failure (error : String)
deriving DecidableEq, Inhabited

/-- The `for (const item of items)` loop of `createOrder`: accumulate
`subtotal` and `orderItems`, returning the error result on a missing or
out-of-stock product. -/
def processItems : List CreateOrderItem → ℚ → List OrderItem →
    Except String (ℚ × List OrderItem)
  | [], subtotal, orderItems => .ok (subtotal, orderItems)
  | item :: rest, subtotal, orderItems =>
    match fetchProduct item.productId with
    | none => .error ("Product " ++ toString item.productId ++ " not found")
    | some product =>
      if !product.inStock then
        .error ("Product " ++ product.name ++ " is out of stock")
      else
        let itemTotal := product.price * item.quantity
        processItems rest (subtotal + itemTotal)
          (orderItems ++ [⟨product, item.quantity, itemTotal⟩])

/-- `createOrder` of the TypeScript end-to-end demo: validates the user and
each product, computes the totals, pushes the new order onto `orders` and
returns `{ success: true, order }`, or returns `{ success: false, error }`
before any push. -/
def createOrder (now : Nat) (st : List Order) (userId : Int)
    (items : List CreateOrderItem) : CreateOrderResult × List Order :=
  match fetchUser userId with
  | none => (.failure ("User " ++ toString userId ++ " not found"), st)
  | some user =>
    match processItems items 0 [] with
    | .error e => (.failure e, st)
    | .ok (subtotal, orderItems) =>
      let discount := calculateDiscount user subtotal
      let tax := calculateTax (subtotal - discount)
      let total := subtotal - discount + tax
      let order : Order :=
        ⟨(st.length : Int) + 1, user, orderItems, subtotal, discount, tax,
         total, .pending, now⟩
      (.success order, st ++ [order])

/-- In-place mutation `order.status = newStatus` of the first array element
found by `orders.find((o) => o.id === orderId)`. -/
def setStatusFirst : List Order → Int → OrderStatus → List Order
  | [], _, _ => []
  | o :: rest, orderId, newStatus =>
    if o.id == orderId then { o with status := newStatus } :: rest
    else o :: setStatusFirst rest orderId newStatus

/-- `updateOrderStatus` of the TypeScript end-to-end demo: find the order,
return `null` when absent, else set its `status` and return it. -/
def updateOrderStatus (st : List Order) (orderId : Int)
    (newStatus : OrderStatus) : Option Order × List Order :=
  match st.find? (fun o => o.id == orderId) with
  | none => (none, st)
  | some o =>
    (some { o with status := newStatus }, setStatusFirst st orderId newStatus)

/-- C8: the typed `createOrder` is atomic on failure — a `success: false`
result leaves the `orders` array exactly as it was, and an order is appended
(at the end, alone) exactly when the result is `success: true`. -/
theorem C8_createOrder_atomic (now : Nat) (st : List Order) (userId : Int)
    (items : List CreateOrderItem) :
    (∀ e, (createOrder now st userId items).1 = .failure e →
      (createOrder now st userId items).2 = st)
    ∧ (∀ o, (createOrder now st userId items).1 = .success o →
      (createOrder now st userId items).2 = st ++ [o]) := by
  unfold createOrder
  cases hu : fetchUser userId with
  | none => simp
  | some user =>
    cases hp : processItems items 0 [] with
    | error e => simp
    | ok pr =>
      obtain ⟨subtotal, orderItems⟩ := pr
      simp

/-- C8 applied at a failing call (unknown user 999): the array is unchanged. -/
theorem C8_witness : (createOrder 0 [] 999 []).2 = [] :=
  (C8_createOrder_atomic 0 [] 999 []).1 "User 999 not found" rfl

/-- C9: every order returned (and hence appended, by C8) with `success: true`
satisfies the pricing invariant: 10% discount for premium, 20% for
enterprise, 0 otherwise, all on the subtotal; 8% tax on the discounted
subtotal; total = subtotal − discount + tax; status `"pending"`. -/
theorem C9_order_pricing_invariant (now : Nat) (st : List Order) (userId : Int)
    (items : List CreateOrderItem) (o : Order)
    (h : (createOrder now st userId items).1 = .success o) :
    o.discount = (if o.user.tier = .premium then o.subtotal * 0.1
      else if o.user.tier = .enterprise then o.subtotal * 0.2 else 0)
    ∧ o.tax = (o.subtotal - o.discount) * 0.08
    ∧ o.total = o.subtotal - o.discount + o.tax
    ∧ o.status = .pending := by
  unfold createOrder at h
  cases hu : fetchUser userId with
  | none =>
    rw [hu] at h
    simp at h
  | some user =>
    rw [hu] at h
    cases hp : processItems items 0 [] with
    | error e =>
      rw [hp] at h
      simp at h
    | ok pr =>
      obtain ⟨subtotal, orderItems⟩ := pr
      rw [hp] at h
      simp at h
      subst h
      refine ⟨?_, rfl, rfl, rfl⟩
      simp [calculateDiscount]

/-- The successful order of `createOrder` for Alice buying two Widgets,
extracted for the C9 witness. -/
def wOrder : Order :=
  match (createOrder 0 [] 1 [⟨101, 2⟩]).1 with
  | .success o => o
  | .failure _ => default

/-- C9 applied at Alice (premium) buying two Widgets. -/
theorem C9_witness :
    wOrder.discount = (if wOrder.user.tier = .premium then wOrder.subtotal * 0.1
      else if wOrder.user.tier = .enterprise then wOrder.subtotal * 0.2 else 0)
    ∧ wOrder.tax = (wOrder.subtotal - wOrder.discount) * 0.08
    ∧ wOrder.total = wOrder.subtotal - wOrder.discount + wOrder.tax
    ∧ wOrder.status = .pending :=
  C9_order_pricing_invariant 0 [] 1 [⟨101, 2⟩] wOrder rfl

theorem setStatusFirst_decomp (orderId : Int) (ns : OrderStatus) :
    ∀ (st : List Order) (o : Order),
      st.find? (fun x => x.id == orderId) = some o →
      ∃ l1 l2, st = l1 ++ o :: l2 ∧ (∀ x ∈ l1, x.id ≠ orderId)
        ∧ setStatusFirst st orderId ns = l1 ++ { o with status := ns } :: l2 := by
  intro st
  induction st with
  | nil =>
    intro o h
    simp [List.find?] at h
  | cons hd tl ih =>
    intro o h
    cases hph : (hd.id == orderId) with
    | true =>
      rw [List.find?] at h
      rw [hph] at h
      simp at h
      subst h
      exact ⟨[], tl, by simp, by simp, by simp [setStatusFirst, hph]⟩
    | false =>
      rw [List.find?] at h
      rw [hph] at h
      obtain ⟨l1, l2, hst, hl1, hset⟩ := ih o h
      refine ⟨hd :: l1, l2, by simp [hst], ?_, by simp [setStatusFirst, hph, hset]⟩
      intro x hx
      rcases List.mem_cons.mp hx with hhd | hl
      · subst hhd
        intro heq
        rw [heq] at hph
        simp at hph
      · exact hl1 x hl

/-- C10: `updateOrderStatus` modifies at most the `status` field of the first
order matching the id.  If no order matches it returns `null` and leaves
every order unchanged; otherwise it returns the matched order with only its
`status` set to `newStatus`, all other fields and all other orders being
untouched. -/
theorem C10_updateOrderStatus_frame (st : List Order) (orderId : Int)
    (newStatus : OrderStatus) :
    ((∀ o ∈ st, o.id ≠ orderId) →
      updateOrderStatus st orderId newStatus = (none, st))
    ∧ (∀ o, st.find? (fun x => x.id == orderId) = some o →
        (updateOrderStatus st orderId newStatus).1 =
          some { o with status := newStatus }
        ∧ ∃ l1 l2, st = l1 ++ o :: l2
          ∧ (∀ x ∈ l1, x.id ≠ orderId)
          ∧ (updateOrderStatus st orderId newStatus).2 =
              l1 ++ { o with status := newStatus } :: l2) := by
  constructor
  · intro hall
    have hnone : st.find? (fun x => x.id == orderId) = none :=
      List.find?_eq_none.mpr (fun x hx => by simpa using hall x hx)
    unfold updateOrderStatus
    rw [hnone]
  · intro o hfind
    obtain ⟨l1, l2, hst, hl1, hset⟩ :=
      setStatusFirst_decomp orderId newStatus st o hfind
    unfold updateOrderStatus
    rw [hfind]
    exact ⟨rfl, l1, l2, hst, hl1, hset⟩

/-- A concrete pending order for the C10 witness. -/
def wOrder10 : Order :=
  ⟨1, ⟨1, "Alice", "alice@example.com", .premium⟩, [], 0, 0, 0, 0, .pending, 0⟩

/-- C10 applied at a one-element orders array whose only order matches. -/
theorem C10_witness :
    (updateOrderStatus [wOrder10] 1 .shipped).1 =
      some { wOrder10 with status := .shipped }
    ∧ ∃ l1 l2, ([wOrder10] : List Order) = l1 ++ wOrder10 :: l2
      ∧ (∀ x ∈ l1, x.id ≠ 1)
      ∧ (updateOrderStatus [wOrder10] 1 .shipped).2 =
          l1 ++ { wOrder10 with status := .shipped } :: l2 :=
  (C10_updateOrderStatus_frame [wOrder10] 1 .shipped).2 wOrder10 rfl

end EndToEndTS

namespace EndToEndJS

/-! Embedding of the buggy JavaScript end-to-end order-processing demo
(`12-END-TO-END`, the JavaScript variant of `src/unnamed/part_002`).  The
global `orders` array is threaded explicitly; `console.log` output is
collected in a log list; a thrown `TypeError` is `Except.error` carrying the
`error.message` string.  `Number.prototype.toFixed` is a parameter `fix` of
the functions that format numbers — the demo's control flow never depends on
its output. -/

/-- A primitive JS value appearing as an id or quantity argument in `main`:
either a number (integral in this file) or a string. -/
inductive JSPrim where
  | num (n : Int)
  | str (s : String)
deriving DecidableEq, Inhabited

/-- Strict equality `===` on primitives: no coercion across types. -/
def jsEq : JSPrim → JSPrim → Bool
  | .num a, .num b => a == b
  | .str a, .str b => a == b
  | _, _ => false

structure UserJS where
  id : Int
  name : String
  email : String
  tier : String
deriving DecidableEq, Inhabited

structure ProductJS where
  id : Int
  name : String
  price : ℚ
  inStock : Bool
deriving DecidableEq, Inhabited

/-- An element of the `items` argument of `createOrder`; in `main`'s last
call both fields are strings. -/
structure ItemJS where
  productId : JSPrim
  quantity : JSPrim
deriving DecidableEq, Inhabited

/-- An element of `orderItems`: BUG 4 stores the quantity under the
misspelled key `quanity`, so a later read of `.quantity` yields
`undefined`. -/
structure OrderItemJS where
  product : ProductJS
  quanity : JSPrim
  total : ℚ
deriving DecidableEq, Inhabited

/-- An order object.  `staus` is the extra property created by the
`order.staus = newStatus` typo (BUG 6) of `updateOrderStatus`; it is absent
(`none`) on creation.  `new Date()` is not modelled (`Unit`). -/
structure OrderJS where
  id : Int
  user : UserJS
  items : List OrderItemJS
  subtotal : ℚ
  discount : ℚ
  tax : ℚ
  total : ℚ
  status : String
  staus : Option String
  createdAt : Unit
deriving DecidableEq, Inhabited

/-- The `users` "database" of the JavaScript file. -/
def users : List UserJS :=
  [⟨1, "Alice", "alice@example.com", "premium"⟩,
   ⟨2, "Bob", "bob@example.com", "basic"⟩,
   ⟨3, "Carol", "carol@example.com", "premium"⟩]

/-- The `products` "database" of the JavaScript file. -/
def products : List ProductJS :=
  [⟨101, "Widget", 29.99, true⟩,
   ⟨102, "Gadget", 49.99, true⟩,
   ⟨103, "Gizmo", 19.99, false⟩]

/-- `fetchUser`: `users.find((u) => u.id === userId)`; `undefined` when no
user matches (strict equality, so a string id never matches). -/
def fetchUser (userId : JSPrim) : Option UserJS :=
  users.find? (fun u => jsEq (.num u.id) userId)

/-- `fetchProduct`: `products.find((p) => p.id === productId)`. -/
def fetchProduct (productId : JSPrim) : Option ProductJS :=
  products.find? (fun p => jsEq (.num p.id) productId)

/-- `calculateDiscount` reads `user.teir` (BUG 1, a typo): that property is
absent from every user object in this file, so the read yields `undefined`,
`undefined === "premium"` is false, and the function always returns 0. -/
def calculateDiscount (_user : UserJS) (_subtotal : ℚ) : ℚ :=
  0

/-- `calculateTax`: 8% of its argument. -/
def calculateTax (subtotal : ℚ) : ℚ :=
  subtotal * 0.08

def parseDigits (s : String) : Nat :=
  s.foldl (fun acc c => acc * 10 + (c.toNat - 48)) 0

/-- JS numeric coercion applied by `*` to `item.quantity`: a number is
unchanged, a nonempty digit string parses to that number.  Other strings
coerce to NaN, which the rational model cannot represent; no execution of
`main` reaches the multiplication with such a value (the string-typed call
throws earlier, at `user.name`). -/
def jsToNumber : JSPrim → ℚ
  | .num n => (n : ℚ)
  | .str s => if s ≠ "" ∧ s.all (fun c => c.isDigit) then (parseDigits s : ℚ) else 0

/-- The `for (const item of items)` loop of the JS `createOrder`: BUG 3 does
not check the fetched product, so a missing product makes `product.price`
throw a `TypeError`; there is no `inStock` check;  BUG 4 stores the quantity
under `quanity`. -/
def processItems : List ItemJS → ℚ → List OrderItemJS →
    Except String (ℚ × List OrderItemJS)
  | [], subtotal, orderItems => .ok (subtotal, orderItems)
  | item :: rest, subtotal, orderItems =>
    match fetchProduct item.productId with
    | none => .error "Cannot read properties of undefined (reading 'price')"
    | some product =>
      let itemTotal := product.price * jsToNumber item.quantity
      processItems rest (subtotal + itemTotal)
        (orderItems ++ [⟨product, item.quantity, itemTotal⟩])

/-- The JS `createOrder`: BUG 2 does not check the fetched user, so a missing
user makes `user.name` (in the `Creating order for …` log line) throw a
`TypeError`; on success the order is pushed onto `orders`.  Returns the
emitted log lines and either the thrown message or the order with the new
`orders` array. -/
def createOrder (st : List OrderJS) (userId : JSPrim) (items : List ItemJS) :
    List String × Except String (OrderJS × List OrderJS) :=
  match fetchUser userId with
  | none => ([], .error "Cannot read properties of undefined (reading 'name')")
  | some user =>
    let log1 := "Creating order for " ++ user.name ++ "..."
    match processItems items 0 [] with
    | .error e => ([log1], .error e)
    | .ok (subtotal, orderItems) =>
      let discount := calculateDiscount user subtotal
      let tax := calculateTax (subtotal - discount)
      let total := subtotal - discount + tax
      let order : OrderJS :=
        ⟨(st.length : Int) + 1, user, orderItems, subtotal, discount, tax,
         total, "pending", none, ()⟩
      ([log1], .ok (order, st ++ [order]))

/-- In-place `order.staus = newStatus` (BUG 6) on the first matching array
element: the misspelled extra property is set, `status` stays unchanged. -/
def setStausFirst : List OrderJS → Int → String → List OrderJS
  | [], _, _ => []
  | o :: rest, orderId, newStatus =>
    if o.id == orderId then { o with staus := some newStatus } :: rest
    else o :: setStausFirst rest orderId newStatus

/-- The JS `updateOrderStatus`: BUG 5 accepts any status string, and when no
order matches, `order.staus = …` on `undefined` throws a `TypeError`. -/
def updateOrderStatus (st : List OrderJS) (orderId : Int) (newStatus : String) :
    Except String (OrderJS × List OrderJS) :=
  match st.find? (fun o => o.id == orderId) with
  | none => .error "Cannot set properties of undefined (setting 'staus')"
  | some o =>
    (.ok ({ o with staus := some newStatus }, setStausFirst st orderId newStatus))

/-- `renderOrderSummary`: only logs; it cannot throw on an order built by
`createOrder` because every read is on a defined object — the two undefined
reads (`order.user.emial`, BUG 7, and `item.quantity`, BUG 8) merely print
as the string "undefined" inside template literals. -/
def renderOrderSummary (fix : ℚ → Nat → String) (order : OrderJS) :
    List String :=
  ["\n========== ORDER SUMMARY ==========",
   "Order #" ++ toString order.id,
   "Customer: " ++ order.user.name ++ " (undefined)",
   "Status: " ++ order.status,
   "\nItems:"]
  ++ order.items.map (fun item =>
      "  - " ++ item.product.name ++ " xundefined = $" ++ fix item.total 2)
  ++ ["\nSubtotal: $" ++ fix order.subtotal 2,
      "Discount: -$" ++ fix order.discount 2,
      "Tax: $" ++ fix order.tax 2,
      "Total: $" ++ fix order.total 2,
      "====================================\n"]

/-- `main` of the JavaScript end-to-end demo: create an order for Alice,
render it, update its status, then deliberately trigger BUG 9 inside a
`try/catch` (logging `Error: …`), and finally call `createOrder` with
string-typed arguments (BUG 10) outside any `try/catch`.  Returns the
collected log and `Except.error` when an exception escapes `main`
uncaught. -/
def main (fix : ℚ → Nat → String) : List String × Except String Unit :=
  let log0 := ["Starting order processing...\n"]
  match createOrder [] (.num 1) [⟨.num 101, .num 2⟩, ⟨.num 102, .num 1⟩] with
  | (clog, .error e) => (log0 ++ clog, .error e)
  | (clog, .ok (order, st1)) =>
    let rlog := renderOrderSummary fix order
    match updateOrderStatus st1 order.id "shipped" with
    | .error e => (log0 ++ clog ++ rlog, .error e)
    | .ok (_, st2) =>
      let step3 : List String × List OrderJS :=
        match createOrder st2 (.num 999) [⟨.num 101, .num 1⟩] with
        | (clog2, .error e) => (clog2 ++ ["Error: " ++ e], st2)
        | (clog2, .ok (badOrder, st3)) =>
          (clog2 ++ renderOrderSummary fix badOrder, st3)
      match createOrder step3.2 (.str "one") [⟨.str "101", .str "2"⟩] with
      | (clog3, .error e) =>
        (log0 ++ clog ++ rlog ++ step3.1 ++ clog3, .error e)
      | (clog3, .ok _) =>
        (log0 ++ clog ++ rlog ++ step3.1 ++ clog3, .ok ())


/-- C4 counterexample: `main()` of the JavaScript order-processing demo does
terminate with an exception escaping uncaught — the final
`createOrder("one", …)` call (BUG 10, string-typed arguments) finds no user
by strict equality, so `user.name` throws a `TypeError` outside any
`try/catch`. -/
theorem C4_counterexample :
    (main (fun _ _ => "")).2 =
      .error "Cannot read properties of undefined (reading 'name')" := rfl

/-- C4 (amended): within `main()`, the failing `createOrder(999, …)` call is
confined to a `try/catch` that logs its message (`Error: …` appears in the
console output), while the final `createOrder("one", …)` call is
deliberately placed outside any `try/catch` and its `TypeError` escapes
`main()` uncaught — whatever `toFixed` formatting is used. -/
theorem C4_amended_main_error_flow (fix : ℚ → Nat → String) :
    (main fix).2 = .error "Cannot read properties of undefined (reading 'name')"
    ∧ "Error: Cannot read properties of undefined (reading 'name')" ∈
        (main fix).1 := by
  refine ⟨rfl, ?_⟩
  simp [main, createOrder, fetchUser, users, jsEq, processItems, fetchProduct,
    products, updateOrderStatus, renderOrderSummary, setStausFirst]

end EndToEndJS
